import Mathlib

/-!
Shallow embedding of the `potty` PO/POT catalog library (`src/lib.rs`).

Rust `String`s are modelled as `List Char` (the claims only involve ASCII
data, where byte indexing and char indexing coincide).  Functions of the
source that can panic (out-of-bounds byte slicing, `unwrap` on a failed
unescape) surface the panic as an explicit outcome: `Parsed.fatal` for the
line classifiers, `none` for `Pot.read` as a whole, so that an aborted
parse is distinguishable from a returned catalog.
-/

/-- Coerces a Lean string literal to the `List Char` representation used
throughout the embedding. -/
def chrs (s : String) : List Char := s.data

/-- Outcome of one of the `FromStr` implementations of the source:
`ok` mirrors `Ok(..)`, `err` mirrors `Err(())` (the line does not classify,
the caller falls through to the next classifier), and `fatal` mirrors a
Rust panic (byte-slice out of bounds, or `unwrap()` of a failed unescape),
which aborts the whole read. -/
inductive Parsed (α : Type) where
  | ok : α → Parsed α
  | err : Parsed α
  | fatal : Parsed α
deriving DecidableEq, Repr

/-- Comment kinds of `PotCommentKind` in the source. -/
inductive PotCommentKind where
  | Reference
  | Extracted
  | Flag
  | Previous
  | Translator
deriving DecidableEq, Repr

/-- The `PotComment` struct of the source. -/
structure PotComment where
  kind : PotCommentKind
  content : List Char
deriving DecidableEq, Repr

/-- The `PotMessage` struct of the source. -/
structure PotMessage where
  comments : List PotComment
  context : Option (List Char)
  id : Option (List Char)
  id_plural : Option (List Char)
  strings : List (List Char)
deriving DecidableEq, Repr

/-- The `Pot` struct of the source: an ordered catalog of messages. -/
structure Pot where
  messages : List PotMessage
deriving DecidableEq, Repr

/-- The transient `PotCommand` struct of the source. -/
structure PotCommand where
  key : List Char
  value : List Char
  index : Option Nat
deriving DecidableEq, Repr

/-- `impl Default for PotMessage` / `PotMessage::new`. -/
def PotMessage.new : PotMessage := ⟨[], none, none, none, []⟩

/-- `impl Default for PotCommand` / `PotCommand::new`. -/
def PotCommand.new : PotCommand := ⟨[], [], none⟩

/-- `PotMessage::is_valid`:
`self.id.is_some() && (self.strings.len() == 1 || (self.id_plural.is_some() && self.strings.len() > 1))`. -/
def PotMessage.is_valid (m : PotMessage) : Bool :=
  m.id.isSome && (m.strings.length == 1 || (m.id_plural.isSome && decide (1 < m.strings.length)))

/-- `PotComment::is_comment`: `!s.is_empty() && &s[0..1] == "#"`.  The byte
slice `&s[0..1]` panics (modelled as `none`) when the line's first
character occupies more than one byte in UTF-8, because byte index 1 is
then not a char boundary. -/
def PotComment.is_comment (s : List Char) : Option Bool :=
  match s with
  | [] => some false
  | c :: _ => if c.utf8Size = 1 then some (c == '#') else none

/-- `impl FromStr for PotCommentKind`.  The source slices `&s[1..2]`, which
panics (modelled as `fatal`) when the line is a single `#` (byte index 2
out of bounds) or when the second character is multi-byte in UTF-8 (byte
index 2 not a char boundary); the first character `#` is one byte. -/
def PotCommentKind.fromStr (s : List Char) : Parsed PotCommentKind :=
  match PotComment.is_comment s with
  | none => .fatal
  | some false => .err
  | some true =>
    match s with
    | _ :: c :: _ =>
      if c.utf8Size = 1 then
        .ok (if c = ':' then .Reference
             else if c = '.' then .Extracted
             else if c = ',' then .Flag
             else if c = '|' then .Previous
             else .Translator)
      else .fatal
    | _ => .fatal

/-- `impl FromStr for PotComment`.  The `unwrap()` on
`PotCommentKind::from_str` propagates that function's panic, as does the
`is_comment` byte slice; in the non-panicking cases the first one or two
characters are single-byte, so the byte slices `&s[1..]` and `&s[2..]`
coincide with the char drops.  Leading whitespace is trimmed (the model
trims the ASCII whitespace of `Char.isWhitespace`, an under-approximation
of Rust's Unicode `trim_start` that agrees on the claims' inputs). -/
def PotComment.fromStr (s : List Char) : Parsed PotComment :=
  match PotComment.is_comment s with
  | none => .fatal
  | some false => .err
  | some true =>
    match PotCommentKind.fromStr s with
    | .ok k =>
      let content := match k with
        | .Translator => s.drop 1
        | _ => s.drop 2
      .ok ⟨k, content.dropWhile Char.isWhitespace⟩
    | _ => .fatal

/-- Modelled from the spec: C-style unescaping of a quoted-string body, the
contract of the external `snailquote::unescape` dependency (not under
`src/`): standard escapes are decoded, and an unterminated or invalid
escape sequence is a failure (`none`), which the source turns into a panic
via `unwrap()`. -/
def escChar : Char → Option Char
  | 'n' => some '\n'
  | 't' => some '\t'
  | 'r' => some '\r'
  | '\\' => some '\\'
  | '"' => some '"'
  | '\'' => some '\''
  | 'a' => some (Char.ofNat 7)
  | 'b' => some (Char.ofNat 8)
  | 'f' => some (Char.ofNat 12)
  | 'v' => some (Char.ofNat 11)
  | _ => none

/-- Modelled from the spec: unescape a string body character by character;
see `escChar`. -/
def unescape : List Char → Option (List Char)
  | [] => some []
  | ['\\'] => none
  | '\\' :: c :: cs =>
    match escChar c with
    | some d => (unescape cs).map (fun t => d :: t)
    | none => none
  | c :: cs => (unescape cs).map (fun t => c :: t)

/-- Character class `[a-z_]` of the command regex. -/
def isKeyChar (c : Char) : Bool := ('a' ≤ c && c ≤ 'z') || c == '_'

/-- Lazy scan for the body of the regex fragment `"(?P<val>.*?[^\\])?"`:
starting right after the opening quote, returns the shortest body that is
closed by a quote not preceded by a backslash, together with the input
remaining after that closing quote. -/
def scanBody (prev : Char) : List Char → Option (List Char × List Char)
  | [] => none
  | c :: cs =>
    if c = '"' ∧ prev ≠ '\\' then some ([], cs)
    else
      match scanBody c cs with
      | some (b, r) => some (c :: b, r)
      | none => none

/-- Value of a digit run, as produced by `str::parse::<usize>`. -/
def digitsToNat (ds : List Char) : Nat :=
  ds.foldl (fun n c => 10 * n + (c.toNat - '0'.toNat)) 0

/-- The optional group `(?:\[(?P<idx>[0-9]+)\])?` of the command regex: if
the input starts with `[` the group must match digits then `]` (the regex
cannot backtrack into a successful overall match otherwise, since the next
required character is a space); otherwise the group is skipped. -/
def parseIndex : List Char → Option (Option Nat × List Char)
  | '[' :: rest =>
    let ds := rest.takeWhile Char.isDigit
    let rest' := rest.dropWhile Char.isDigit
    if ds = [] then none
    else
      match rest' with
      | ']' :: r => some (some (digitsToNat ds), r)
      | _ => none
  | rest => some (none, rest)

/-- `impl FromStr for PotCommand`: the regex
`^(?P<cmd>[a-z_]+)(?:\[(?P<idx>[0-9]+)\])? "(?P<val>.*?[^\\])?"`
(anchored only at the start of the line: input remaining after the closing
quote is ignored), followed by `unescape(val).unwrap()` (a failed unescape
panics, modelled as `fatal`). -/
def PotCommand.fromStr (s : List Char) : Parsed PotCommand :=
  let key := s.takeWhile isKeyChar
  let rest := s.dropWhile isKeyChar
  if key = [] then .err
  else
    match parseIndex rest with
    | none => .err
    | some (idx, rest') =>
      match rest' with
      | ' ' :: '"' :: rest'' =>
        match scanBody '"' rest'' with
        | none => .err
        | some (body, _) =>
          match unescape body with
          | none => .fatal
          | some v => .ok ⟨key, v, idx⟩
      | _ => .err

/-- The continuation regex `^"(.*?[^\\])?"$` of `Pot::read`, anchored at
both ends: the line must begin and end with a quote, and the body between
them must be empty or must not end with a backslash (backtracking over the
lazy group makes the closing quote the final character of the line).
Returns the body on a match. -/
def contMatch (s : List Char) : Option (List Char) :=
  match s with
  | '"' :: c :: rest =>
    let inner := c :: rest
    if inner.getLast? = some '"' then
      let body := inner.dropLast
      if body = [] ∨ body.getLast? ≠ some '\\' then some body else none
    else none
  | _ => none

/-- `PotCommand::can_apply`. -/
def PotCommand.can_apply (c : PotCommand) (m : PotMessage) : Bool :=
  if c.key = chrs "msgctxt" then
    m.context.isNone && m.id.isNone && m.id_plural.isNone && m.strings.isEmpty
  else if c.key = chrs "msgid" then
    m.id.isNone && m.id_plural.isNone && m.strings.isEmpty
  else if c.key = chrs "msgid_plural" then
    m.id_plural.isNone && m.strings.isEmpty
  else if c.key = chrs "msgstr" then
    decide (c.index.getD 0 + 1 > m.strings.length)
  else false

/-- `PotCommand::force_apply`. -/
def PotCommand.force_apply (c : PotCommand) (m : PotMessage) : PotMessage :=
  if c.key = chrs "msgctxt" then { m with context := some c.value }
  else if c.key = chrs "msgid" then { m with id := some c.value }
  else if c.key = chrs "msgid_plural" then { m with id_plural := some c.value }
  else if c.key = chrs "msgstr" then
    let idx := c.index.getD 0
    if idx + 1 > m.strings.length then { m with strings := m.strings ++ [c.value] }
    else { m with strings := m.strings.set idx c.value }
  else m

/-- `PotCommand::apply`: applies only when `can_apply` holds. -/
def PotCommand.apply (c : PotCommand) (m : PotMessage) : PotMessage :=
  if c.can_apply m then c.force_apply m else m

/-- The mutable state of the loop in `Pot::read`: the catalog built so far,
the message under construction, and the most recently parsed command. -/
structure ReadState where
  pot : List PotMessage
  message : PotMessage
  command : PotCommand
deriving DecidableEq, Repr

/-- The state at entry of the loop of `Pot::read`. -/
def initState : ReadState := ⟨[], PotMessage.new, PotCommand.new⟩

/-- The body of the `for line in f.lines()` loop of `Pot::read`, for one
line.  `none` models a panic aborting the read. -/
def Pot.step (st : ReadState) (s : List Char) : Option ReadState :=
  match PotComment.fromStr s with
  | .ok comment =>
    let pm :=
      if st.message.is_valid then (st.pot ++ [st.message], PotMessage.new)
      else (st.pot, st.message)
    some ⟨pm.1, { pm.2 with comments := pm.2.comments ++ [comment] }, st.command⟩
  | .fatal => none
  | .err =>
    match PotCommand.fromStr s with
    | .ok cmd =>
      let pm :=
        if cmd.can_apply st.message then (st.pot, st.message)
        else (st.pot ++ [st.message], PotMessage.new)
      some ⟨pm.1, cmd.apply pm.2, cmd⟩
    | .fatal => none
    | .err =>
      match contMatch s with
      | some body =>
        match unescape body with
        | some v =>
          let cmd := { st.command with value := st.command.value ++ v }
          some ⟨st.pot, cmd.force_apply st.message, cmd⟩
        | none => none
      | none => some st

/-- Folds `Pot.step` over the input lines. -/
def Pot.readLoop : ReadState → List (List Char) → Option ReadState
  | st, [] => some st
  | st, l :: ls =>
    match Pot.step st l with
    | some st' => Pot.readLoop st' ls
    | none => none

/-- The end-of-input push of `Pot::read`:
`if pot.messages.is_empty() || pot.messages.last().unwrap().id.as_ref() != message.id.as_ref()`
then the in-progress message is pushed, otherwise it is dropped. -/
def Pot.finish (st : ReadState) : Pot :=
  if st.pot = [] ∨ (st.pot.getLast?.getD PotMessage.new).id ≠ st.message.id
  then ⟨st.pot ++ [st.message]⟩
  else ⟨st.pot⟩

/-- `Pot::read`, taking the already-split input lines (the source iterates
`BufReader::lines`); `none` models a panic aborting the read. -/
def Pot.read (lines : List (List Char)) : Option Pot :=
  (Pot.readLoop initState lines).map Pot.finish

/-- Marker written after `#` for each comment kind
(`impl fmt::Display for PotCommentKind`). -/
def PotCommentKind.marker : PotCommentKind → List Char
  | .Reference => [':']
  | .Extracted => ['.']
  | .Flag => [',']
  | .Previous => ['|']
  | .Translator => []

/-- `impl fmt::Display for PotComment`: `write!(f, "#{} {}", kind, content)`. -/
def PotComment.display (c : PotComment) : List Char :=
  '#' :: (c.kind.marker ++ [' '] ++ c.content)

/-- `impl fmt::Display for PotMessage`: one line per comment, then the
`msgctxt`/`msgid`/`msgid_plural` lines when present, then one `msgstr`
line per string.  Field values are written verbatim between the quotes —
the source performs no escaping. -/
def PotMessage.display (m : PotMessage) : List Char :=
  (m.comments.map (fun c => c.display ++ ['\n'])).flatten
  ++ (match m.context with
      | some ctx => chrs "msgctxt \"" ++ ctx ++ chrs "\"\n"
      | none => [])
  ++ (match m.id with
      | some i => chrs "msgid \"" ++ i ++ chrs "\"\n"
      | none => [])
  ++ (match m.id_plural with
      | some p => chrs "msgid_plural \"" ++ p ++ chrs "\"\n"
      | none => [])
  ++ (m.strings.enum.map (fun pr =>
        if m.id_plural.isSome then
          chrs "msgstr[" ++ Nat.toDigits 10 pr.1 ++ chrs "] \"" ++ pr.2 ++ chrs "\"\n"
        else
          chrs "msgstr \"" ++ pr.2 ++ chrs "\"\n")).flatten

/-- `Pot::write`: the messages' display texts with one extra newline
between consecutive messages. -/
def Pot.write (p : Pot) : List Char :=
  List.intercalate ['\n'] (p.messages.map PotMessage.display)

/-- Splits text into lines the way `BufRead::lines` does: segments
delimited by a newline character, with a carriage return preceding a
newline stripped, and no final empty segment when the text ends in a
newline.  `cur` holds the current segment reversed. -/
def splitLinesAux (cur : List Char) : List Char → List (List Char)
  | [] => if cur.isEmpty then [] else [cur.reverse]
  | c :: rest =>
    if c = '\n' then
      (match cur with
       | '\r' :: cur' => cur'.reverse
       | _ => cur.reverse) :: splitLinesAux [] rest
    else splitLinesAux (c :: cur) rest

/-- Splits a text into lines (`BufRead::lines` semantics). -/
def splitLines (text : List Char) : List (List Char) :=
  splitLinesAux [] text

/-- Validity as the specification's words state it (the claim's version of
`is_valid`, kept separate so the two predicates can be compared): the id is
set, and either the strings have length exactly one with no plural set, or
the plural is set and the strings have length greater than one. -/
def spec_is_valid (m : PotMessage) : Prop :=
  m.id.isSome = true ∧
    ((m.strings.length = 1 ∧ m.id_plural = none) ∨
      (m.id_plural.isSome = true ∧ 1 < m.strings.length))

/-- Catalog used to exercise the round-trip of claim C1: one valid message
whose id contains double quotes. -/
def C1cat : Pot :=
  ⟨[⟨[], none, some (chrs "a \"quoted\" word"), none, [chrs "x"]⟩]⟩

/-- C1 (code bug): the round-trip identity fails because serialization does
not escape: `Pot.write` emits field values verbatim between quotes, so a
catalog whose single valid message has id `a "quoted" word` serializes to
`msgid "a "quoted" word"`, and reading that text back yields a message
whose id is the truncated `a ` — not the original sequence of fields. -/
theorem C1_roundtrip_bug :
    (∀ m ∈ C1cat.messages, m.is_valid = true) ∧
    Pot.read (splitLines (Pot.write C1cat)) =
      some ⟨[⟨[], none, some (chrs "a "), none, [chrs "x"]⟩]⟩ ∧
    Pot.read (splitLines (Pot.write C1cat)) ≠ some C1cat := by
  refine ⟨by decide, by decide, by decide⟩

/-- C2 counterexample: applying `msgstr[1] "b"` (via `force_apply`) to a
message with empty `strings` does not give two slots with `"b"` at index 1:
the value is appended, so `strings` is the one-element list `["b"]`. -/
theorem C2_out_of_order_cex :
    ¬ (2 ≤ (PotCommand.force_apply ⟨chrs "msgstr", chrs "b", some 1⟩ PotMessage.new).strings.length ∧
       (PotCommand.force_apply ⟨chrs "msgstr", chrs "b", some 1⟩ PotMessage.new).strings.get? 1 =
         some (chrs "b")) := by
  decide

/-- C2 (amended): applying the command `msgstr[1] "b"` to a message whose
`strings` sequence is empty appends the value, so `strings` becomes the
single-slot list `["b"]`, with `"b"` at index 0 and index 1 absent. -/
theorem C2_out_of_order_amended :
    (PotCommand.force_apply ⟨chrs "msgstr", chrs "b", some 1⟩ PotMessage.new).strings =
      [chrs "b"] := by
  decide

/-- C3 (code bug): parsing the line `msgid "a \"quoted\" word"` does yield
the decoded id `a "quoted" word`, but re-serializing the resulting message
produces `msgid "a "quoted" word"` (quotes not re-escaped), which differs
from the input line. -/
theorem C3_escaped_quote :
    Pot.read [chrs "msgid \"a \\\"quoted\\\" word\""] =
      some ⟨[⟨[], none, some (chrs "a \"quoted\" word"), none, []⟩]⟩ ∧
    PotMessage.display ⟨[], none, some (chrs "a \"quoted\" word"), none, []⟩ =
      chrs "msgid \"a \"quoted\" word\"\n" ∧
    PotMessage.display ⟨[], none, some (chrs "a \"quoted\" word"), none, []⟩ ≠
      chrs "msgid \"a \\\"quoted\\\" word\"\n" := by
  refine ⟨by decide, by decide, by decide⟩

/-- C4 counterexample: a message with both `id` and `id_plural` set and
exactly one string is accepted by the source's `is_valid`, but the claim's
predicate (which requires no plural in the one-string case) rejects it. -/
theorem C4_validity_cex :
    PotMessage.is_valid ⟨[], none, some (chrs "a"), some (chrs "b"), [chrs "c"]⟩ = true ∧
    ¬ spec_is_valid ⟨[], none, some (chrs "a"), some (chrs "b"), [chrs "c"]⟩ := by
  constructor
  · decide
  · unfold spec_is_valid
    decide

/-- C4 (amended): `is_valid` holds iff the id is set and either `strings`
has length exactly one (regardless of `id_plural`), or `id_plural` is set
and `strings` has length greater than one; in particular a message with an
id but no strings and no plural is not valid. -/
theorem C4_validity_amended (m : PotMessage) :
    m.is_valid = true ↔
      (m.id.isSome = true ∧
        (m.strings.length = 1 ∨ (m.id_plural.isSome = true ∧ 1 < m.strings.length))) := by
  simp [PotMessage.is_valid]

/-- C5 (code bug): on the one-character line `#`, `PotCommentKind::from_str`
slices `&s[1..2]` out of bounds, so comment parsing panics (and so does the
whole read) instead of yielding a Translator comment with empty content. -/
theorem C5_bare_hash :
    PotComment.fromStr (chrs "#") = .fatal ∧ Pot.read [chrs "#"] = none := by
  refine ⟨by decide, by decide⟩

/-- C6: after all lines are processed (loop state `st`), the in-progress
message is pushed onto the catalog returned by `Pot.read` iff the catalog
built so far is empty or the id of its last message differs from the
in-progress message's id; otherwise the in-progress message is dropped. -/
theorem C6_end_push (lines : List (List Char)) (st : ReadState)
    (h : Pot.readLoop initState lines = some st) :
    (Pot.read lines = some ⟨st.pot ++ [st.message]⟩ ↔
      (st.pot = [] ∨ (st.pot.getLast?.getD PotMessage.new).id ≠ st.message.id)) ∧
    (¬ (st.pot = [] ∨ (st.pot.getLast?.getD PotMessage.new).id ≠ st.message.id) →
      Pot.read lines = some ⟨st.pot⟩) := by
  unfold Pot.read
  rw [h]
  simp only [Option.map_some']
  unfold Pot.finish
  by_cases hc : st.pot = [] ∨ (st.pot.getLast?.getD PotMessage.new).id ≠ st.message.id
  · rw [if_pos hc]
    exact ⟨⟨fun _ => hc, fun _ => rfl⟩, fun hn => absurd hc hn⟩
  · rw [if_neg hc]
    refine ⟨⟨fun heq => ?_, fun hcond => absurd hcond hc⟩, fun _ => rfl⟩
    exfalso
    have h2 : st.pot = st.pot ++ [st.message] :=
      congrArg Pot.messages (Option.some.inj heq)
    have h3 := congrArg List.length h2
    simp at h3

/-- Witness for C6 at a concrete input: two command lines building one
valid message, with the loop state computed explicitly. -/
theorem C6_end_push_w :
    (Pot.read [chrs "msgid \"a\"", chrs "msgstr \"1\""] =
      some ⟨([] : List PotMessage) ++ [⟨[], none, some (chrs "a"), none, [chrs "1"]⟩]⟩ ↔
      (([] : List PotMessage) = [] ∨
        (([] : List PotMessage).getLast?.getD PotMessage.new).id ≠
          (⟨[], none, some (chrs "a"), none, [chrs "1"]⟩ : PotMessage).id)) ∧
    (¬ (([] : List PotMessage) = [] ∨
        (([] : List PotMessage).getLast?.getD PotMessage.new).id ≠
          (⟨[], none, some (chrs "a"), none, [chrs "1"]⟩ : PotMessage).id) →
      Pot.read [chrs "msgid \"a\"", chrs "msgstr \"1\""] = some ⟨([] : List PotMessage)⟩) :=
  C6_end_push [chrs "msgid \"a\"", chrs "msgstr \"1\""]
    ⟨[], ⟨[], none, some (chrs "a"), none, [chrs "1"]⟩, ⟨chrs "msgstr", chrs "1", none⟩⟩
    (by decide)

/-- C7 counterexample: the command regex is anchored only at the start of
the line, so `msgid "a" x` — with trailing characters after the closing
quote — still parses as a Command with key `msgid` and value `a`,
contradicting the claim that such a line is not a Command. -/
theorem C7_anchor_cex :
    PotCommand.fromStr (chrs "msgid \"a\" x") = .ok ⟨chrs "msgid", chrs "a", none⟩ := by
  decide

/-- C7 (amended): a line beginning with a keyword, optional bracketed
digits, one space and a quoted string parses as a Command no matter what
follows the closing quote: any suffix after `msgid "a"` is ignored. -/
theorem C7_anchor_amended (extra : List Char) :
    PotCommand.fromStr (chrs "msgid \"a\"" ++ extra) =
      .ok ⟨chrs "msgid", chrs "a", none⟩ := by
  rfl

/-- C8: parsing the lines `msgid ""`, `"hello "`, `"world"` yields one
message whose id is `hello world`: each continuation line's decoded body is
appended to the last command's accumulated value and force-applied. -/
theorem C8_continuation :
    Pot.read [chrs "msgid \"\"", chrs "\"hello \"", chrs "\"world\""] =
      some ⟨[⟨[], none, some (chrs "hello world"), none, []⟩]⟩ := by
  decide

/-- C9 (code bug): unrecognized lines are not always inert.  The line
consisting of the single character `é` is not a Command, not a
Continuation, and its first character is not `#`, so per the spec it is
unrecognized and should be skipped silently; but `é` occupies two bytes in
UTF-8, so the byte slice `&s[0..1]` in `PotComment::is_comment` falls on a
non-char-boundary and the program panics, aborting the whole read instead
of continuing. -/
theorem C9_unrecognized_panic :
    PotComment.is_comment (chrs "é") = none ∧
    PotCommand.fromStr (chrs "é") = .err ∧
    contMatch (chrs "é") = none ∧
    Pot.step initState (chrs "é") = none ∧
    Pot.read [chrs "é"] = none := by
  refine ⟨by decide, by decide, by decide, by decide, by decide⟩

/-- C10: `Pot.read` never returns an empty catalog, and reading empty
input yields a catalog with exactly one message having no comments, no
context, no id, no plural id, and no strings. -/
theorem C10_nonempty_catalog :
    (∀ lines pot, Pot.read lines = some pot → pot.messages ≠ []) ∧
    Pot.read [] = some ⟨[⟨[], none, none, none, []⟩]⟩ := by
  refine ⟨?_, by decide⟩
  intro lines pot h
  unfold Pot.read at h
  cases hl : Pot.readLoop initState lines with
  | none => rw [hl] at h; simp at h
  | some st =>
    rw [hl] at h
    simp only [Option.map_some'] at h
    have hpot : pot = Pot.finish st := (Option.some.inj h).symm
    subst hpot
    unfold Pot.finish
    split
    · simp
    · next hcond => exact fun hnil => hcond (Or.inl hnil)

/-- Witness for C10 at a concrete input: reading empty input returns a
catalog, and that catalog is nonempty. -/
theorem C10_nonempty_catalog_w :
    (⟨[⟨[], none, none, none, []⟩]⟩ : Pot).messages ≠ [] :=
  C10_nonempty_catalog.1 [] ⟨[⟨[], none, none, none, []⟩]⟩ (by decide)
